import Mathlib

/-!
# Shipment lifecycle model — verification development

Shallow embedding of the logistics data model declared in `app/models.py`
(SQLAlchemy declarative classes), of the seeding script
`seed_logistics_db.py`, and of the environment guard of `schema_sync.py`.

Conventions of the embedding:
* `DateTime` columns are modelled as `Nat` tick counts (UTC, at least
  second resolution per the spec); a nullable column becomes an `Option`.
* `Float` money/distance columns (`total_amount`, `distance_km`) become
  `Option ℚ`; no claim depends on their arithmetic.
* surrogate keys are `Nat`; the store assigns a fresh key as one more
  than the maximum key in use (autoincrement).
* a table is a `List` of rows in insertion order; a SQLAlchemy
  `query(...).filter_by(...).first()` is `List.find?`.

The lifecycle operations (`create_shipment`, `transition_status`,
`get_status_history`, `adjust_quantity`) and the error taxonomy are not
implemented anywhere in the repository — the repository holds only the
schema declarations, demo scripts and raw-SQL walkthroughs — so they are
modelled from the spec, as marked on each definition.
-/

/-- Row of table `customers`: `name`, `email` non-null, `email` unique,
`phone` nullable (`app/models.py`, class `Customer`). -/
structure Customer where
  id : Nat
  name : String
  email : String
  phone : Option String
deriving DecidableEq

/-- Row of table `warehouses`: `name`, `location` non-null
(`app/models.py`, class `Warehouse`). -/
structure Warehouse where
  id : Nat
  name : String
  location : String
deriving DecidableEq

/-- Row of table `routes`: `origin`, `destination` non-null,
`distance_km` a nullable float (`app/models.py`, class `Route`). -/
structure Route where
  id : Nat
  origin : String
  destination : String
  distance_km : Option ℚ
deriving DecidableEq

/-- Row of table `drivers`: `name` non-null, `phone` nullable,
`license_number` nullable and unique (`app/models.py`, class `Driver`). -/
structure Driver where
  id : Nat
  name : String
  phone : Option String
  license_number : Option String
deriving DecidableEq

/-- Row of table `vehicles`: `plate_number` non-null and unique, `type`
and `capacity` nullable (`app/models.py`, class `Vehicle`). -/
structure Vehicle where
  id : Nat
  plate_number : String
  type : Option String
  capacity : Option Int
deriving DecidableEq

/-- Row of table `shipments`: five nullable foreign keys, a status string
(default `pending`, always populated on ORM insert), nullable money and
timestamp columns (`app/models.py`, class `Shipment`). -/
structure Shipment where
  id : Nat
  customer_id : Option Nat
  warehouse_id : Option Nat
  route_id : Option Nat
  driver_id : Option Nat
  vehicle_id : Option Nat
  status : String
  total_amount : Option ℚ
  created_at : Option Nat
  updated_at : Option Nat
  estimated_delivery : Option Nat
deriving DecidableEq

/-- Row of table `trackings`: nullable foreign key to `shipments`,
nullable `status`, `location`, `timestamp` (`app/models.py`, class
`Tracking`). -/
structure Tracking where
  id : Nat
  shipment_id : Option Nat
  status : Option String
  location : Option String
  timestamp : Option Nat
deriving DecidableEq

/-- Row of table `users`: `username` unique non-null, `password` and
`role` non-null (`app/models.py`, class `User`). -/
structure User where
  id : Nat
  username : String
  password : String
  role : String
deriving DecidableEq

/-- Row of table `inventories`: nullable foreign key to `warehouses`,
`item_name` and `quantity` non-null, `last_updated` nullable
(`app/models.py`, class `Inventory`). -/
structure Inventory where
  id : Nat
  warehouse_id : Option Nat
  item_name : String
  quantity : Int
  last_updated : Option Nat
deriving DecidableEq

/-- Row of table `shipment_status_histories`: nullable foreign key to
`shipments`, `status` and `timestamp` non-null (`app/models.py`, class
`ShipmentStatusHistory`). -/
structure ShipmentStatusHistory where
  id : Nat
  shipment_id : Option Nat
  status : String
  timestamp : Nat
deriving DecidableEq

/-- The persistent store: one list of rows per table of the schema
declared in `app/models.py`. -/
structure Store where
  customers : List Customer
  warehouses : List Warehouse
  routes : List Route
  drivers : List Driver
  vehicles : List Vehicle
  shipments : List Shipment
  trackings : List Tracking
  users : List User
  inventories : List Inventory
  histories : List ShipmentStatusHistory
deriving DecidableEq

/-- The store with every table empty. -/
def emptyStore : Store :=
  ⟨[], [], [], [], [], [], [], [], [], []⟩

/-- Autoincrement: the fresh surrogate key is one more than the largest
key in use. -/
def nextId (ids : List Nat) : Nat :=
  ids.foldr max 0 + 1

/-- Modelled from the spec: the error taxonomy of §7 — `ReferenceError`,
`InvalidTransitionError`, `NotFoundError`, `InsufficientStockError`.
The repository implements none of these; only the spec names them. -/
inductive LogisticsError where
  | referenceError
  | invalidTransitionError
  | notFoundError
  | insufficientStockError
deriving DecidableEq

/-- Modelled from the spec: the allowed status set
`{pending, in_transit, delivered, cancelled, delayed}` of §4.1. -/
def allowed_statuses : List String :=
  ["pending", "in_transit", "delivered", "cancelled", "delayed"]

/-- Modelled from the spec: the state machine of §4.1 —
`pending -> in_transit | cancelled`,
`in_transit -> delivered | delayed | cancelled`,
`delayed -> in_transit | cancelled`; `delivered` and `cancelled` are
terminal; everything else, no-op transitions included, is illegal. -/
def allowed_transition (s t : String) : Bool :=
  (s == "pending" && (t == "in_transit" || t == "cancelled")) ||
  (s == "in_transit" && (t == "delivered" || t == "delayed" || t == "cancelled")) ||
  (s == "delayed" && (t == "in_transit" || t == "cancelled"))

/-- Modelled from the spec: whether an optional foreign reference
resolves — absent is fine, present must hit an existing key (§3:
dangling references are invalid). -/
def refOk (ids : List Nat) : Option Nat → Bool
  | none => true
  | some i => ids.contains i

/-- Modelled from the spec: all five foreign references of a shipment
resolve against the store. -/
def refs_resolve (st : Store) (cid wid rid did vid : Option Nat) : Bool :=
  refOk (st.customers.map Customer.id) cid &&
  refOk (st.warehouses.map Warehouse.id) wid &&
  refOk (st.routes.map Route.id) rid &&
  refOk (st.drivers.map Driver.id) did &&
  refOk (st.vehicles.map Vehicle.id) vid

/-- Modelled from the spec: `create_shipment` of §4.1 — validates that
referenced entities exist, fails with `ReferenceError` if not, and
produces a Shipment in status `pending` with
`created_at = updated_at = now`, as one atomic unit of work. -/
def create_shipment (st : Store) (cid wid rid did vid : Option Nat)
    (amount : Option ℚ) (eta : Option Nat) (now : Nat) :
    Except LogisticsError (Store × Shipment) :=
  if refs_resolve st cid wid rid did vid then
    let sh : Shipment :=
      { id := nextId (st.shipments.map Shipment.id)
        customer_id := cid, warehouse_id := wid, route_id := rid
        driver_id := did, vehicle_id := vid
        status := "pending", total_amount := amount
        created_at := some now, updated_at := some now
        estimated_delivery := eta }
    .ok ({ st with shipments := st.shipments ++ [sh] }, sh)
  else
    .error .referenceError

/-- Modelled from the spec: `transition_status` of §4.1 — fails with
`NotFoundError` if the shipment does not exist; validates membership in
the allowed status set and legality per the state machine, failing with
`InvalidTransitionError` otherwise; on success appends one Tracking row
`(status, location, timestamp)`, one ShipmentStatusHistory row
`(status, timestamp)` and sets `updated_at = timestamp`, as one atomic
unit of work. -/
def transition_status (st : Store) (shipment_id : Nat) (new_status : String)
    (location : String) (timestamp : Nat) :
    Except LogisticsError (Store × Shipment) :=
  match st.shipments.find? (fun sh => sh.id == shipment_id) with
  | none => .error .notFoundError
  | some sh =>
    if allowed_statuses.contains new_status && allowed_transition sh.status new_status then
      let sh' := { sh with status := new_status, updated_at := some timestamp }
      let tr : Tracking :=
        { id := nextId (st.trackings.map Tracking.id)
          shipment_id := some shipment_id, status := some new_status
          location := some location, timestamp := some timestamp }
      let hrow : ShipmentStatusHistory :=
        { id := nextId (st.histories.map ShipmentStatusHistory.id)
          shipment_id := some shipment_id, status := new_status
          timestamp := timestamp }
      .ok ({ st with
              shipments := st.shipments.map (fun x => if x.id == shipment_id then sh' else x)
              trackings := st.trackings ++ [tr]
              histories := st.histories ++ [hrow] }, sh')
    else
      .error .invalidTransitionError

/-- The store observable after a `transition_status` call: the new store
on success, the untouched store on failure (the failed transaction rolls
back — §5, §7 of the spec). -/
def transitionPost (st : Store) (shipment_id : Nat) (new_status location : String)
    (timestamp : Nat) : Store :=
  match transition_status st shipment_id new_status location timestamp with
  | .ok (st', _) => st'
  | .error _ => st

/-- The store observable after a `create_shipment` call: the new store on
success, the untouched store on failure. -/
def createPost (st : Store) (cid wid rid did vid : Option Nat)
    (amount : Option ℚ) (eta : Option Nat) (now : Nat) : Store :=
  match create_shipment st cid wid rid did vid amount eta now with
  | .ok (st', _) => st'
  | .error _ => st

/-- Modelled from the spec: `adjust_quantity` of §4.2 — fails with
`NotFoundError` when the Warehouse/item row is absent, with
`InsufficientStockError` when `current + delta < 0`; otherwise persists
`current + delta` and updates `last_updated`. -/
def adjust_quantity (st : Store) (warehouse_id : Nat) (item_name : String)
    (delta : Int) (now : Nat) : Except LogisticsError (Store × Int) :=
  match st.inventories.find?
      (fun inv => inv.warehouse_id == some warehouse_id && inv.item_name == item_name) with
  | none => .error .notFoundError
  | some inv =>
    if inv.quantity + delta < 0 then
      .error .insufficientStockError
    else
      let inv' := { inv with quantity := inv.quantity + delta, last_updated := some now }
      .ok ({ st with
              inventories := st.inventories.map (fun x => if x.id == inv.id then inv' else x) },
           inv.quantity + delta)

/-- The store observable after an `adjust_quantity` call: the new store
on success, the untouched store on failure. -/
def adjustPost (st : Store) (warehouse_id : Nat) (item_name : String)
    (delta : Int) (now : Nat) : Store :=
  match adjust_quantity st warehouse_id item_name delta now with
  | .ok (st', _) => st'
  | .error _ => st

/-- Keeps the earliest of any repeated `(status, timestamp)` fact, as the
duplicate-eliminating SQL `UNION` of the two audit tables does. -/
def dedupPairs : List (String × Nat) → List (String × Nat)
  | [] => []
  | p :: rest => if rest.contains p then dedupPairs rest else p :: dedupPairs rest

/-- Inserts an entry into a list already ordered by timestamp. -/
def insertByTime (p : String × Nat) : List (String × Nat) → List (String × Nat)
  | [] => [p]
  | q :: rest => if p.2 ≤ q.2 then p :: q :: rest else q :: insertByTime p rest

/-- Orders status entries by timestamp (insertion sort, stable). -/
def sortByTime : List (String × Nat) → List (String × Nat)
  | [] => []
  | p :: rest => insertByTime p (sortByTime rest)

/-- The `(status, timestamp)` facts the Tracking table holds for one
shipment (rows with a NULL status or timestamp contribute nothing). -/
def trackingEntries (st : Store) (shipment_id : Nat) : List (String × Nat) :=
  st.trackings.filterMap (fun t =>
    if t.shipment_id == some shipment_id then
      match t.status, t.timestamp with
      | some s, some ts => some (s, ts)
      | _, _ => none
    else none)

/-- The `(status, timestamp)` facts the ShipmentStatusHistory table holds
for one shipment. -/
def historyEntries (st : Store) (shipment_id : Nat) : List (String × Nat) :=
  st.histories.filterMap (fun h =>
    if h.shipment_id == some shipment_id then some (h.status, h.timestamp) else none)

/-- Modelled from the spec: `get_status_history` of §4.1 — the merged,
duplicate-eliminating, time-ordered view combining the Tracking and
ShipmentStatusHistory records of one shipment; a fresh query each call. -/
def get_status_history (st : Store) (shipment_id : Nat) : List (String × Nat) :=
  sortByTime (dedupPairs (trackingEntries st shipment_id ++ historyEntries st shipment_id))

/-- First customer matching an email, as
`session.query(Customer).filter_by(email=...).first()`. -/
def findCustomerByEmail (st : Store) (e : String) : Option Customer :=
  st.customers.find? (fun c => c.email == e)

/-- First warehouse matching a name. -/
def findWarehouseByName (st : Store) (n : String) : Option Warehouse :=
  st.warehouses.find? (fun w => w.name == n)

/-- First route matching origin and destination. -/
def findRouteByEndpoints (st : Store) (o d : String) : Option Route :=
  st.routes.find? (fun r => r.origin == o && r.destination == d)

/-- First driver matching a license number. -/
def findDriverByLicense (st : Store) (l : String) : Option Driver :=
  st.drivers.find? (fun d => d.license_number == some l)

/-- First vehicle matching a plate number. -/
def findVehicleByPlate (st : Store) (p : String) : Option Vehicle :=
  st.vehicles.find? (fun v => v.plate_number == p)

/-- First user matching a username. -/
def findUserByUsername (st : Store) (u : String) : Option User :=
  st.users.find? (fun u' => u'.username == u)

/-- First shipment matching all five foreign keys, as the seed script's
`filter_by(customer_id=..., warehouse_id=..., route_id=..., driver_id=...,
vehicle_id=...).first()`. -/
def findShipmentByRefs (st : Store) (c : Customer) (w : Warehouse) (r : Route)
    (d : Driver) (v : Vehicle) : Option Shipment :=
  st.shipments.find? (fun s =>
    s.customer_id == some c.id && s.warehouse_id == some w.id &&
    s.route_id == some r.id && s.driver_id == some d.id && s.vehicle_id == some v.id)

/-- Customer step of `seed_logistics_db.py`: query by email
`alice@example.com`, insert Alice Smith only when absent, return the row
used by the later shipment step. -/
def seedCustomer (st : Store) : Store × Customer :=
  match findCustomerByEmail st "alice@example.com" with
  | some c => (st, c)
  | none =>
    let c : Customer :=
      { id := nextId (st.customers.map Customer.id)
        name := "Alice Smith", email := "alice@example.com"
        phone := some "123-456-7890" }
    ({ st with customers := st.customers ++ [c] }, c)

/-- Warehouse step of the seed script: query by name `Central Warehouse`,
insert only when absent. -/
def seedWarehouse (st : Store) : Store × Warehouse :=
  match findWarehouseByName st "Central Warehouse" with
  | some w => (st, w)
  | none =>
    let w : Warehouse :=
      { id := nextId (st.warehouses.map Warehouse.id)
        name := "Central Warehouse", location := "123 Main St" }
    ({ st with warehouses := st.warehouses ++ [w] }, w)

/-- Route step of the seed script: query by origin `City A` and
destination `City B`, insert only when absent. -/
def seedRoute (st : Store) : Store × Route :=
  match findRouteByEndpoints st "City A" "City B" with
  | some r => (st, r)
  | none =>
    let r : Route :=
      { id := nextId (st.routes.map Route.id)
        origin := "City A", destination := "City B"
        distance_km := some (120.5 : ℚ) }
    ({ st with routes := st.routes ++ [r] }, r)

/-- Driver step of the seed script: query by license `LIC12345`, insert
only when absent. -/
def seedDriver (st : Store) : Store × Driver :=
  match findDriverByLicense st "LIC12345" with
  | some d => (st, d)
  | none =>
    let d : Driver :=
      { id := nextId (st.drivers.map Driver.id)
        name := "Bob Driver", phone := some "555-1234"
        license_number := some "LIC12345" }
    ({ st with drivers := st.drivers ++ [d] }, d)

/-- Vehicle step of the seed script: query by plate `ABC-123`, insert
only when absent. -/
def seedVehicle (st : Store) : Store × Vehicle :=
  match findVehicleByPlate st "ABC-123" with
  | some v => (st, v)
  | none =>
    let v : Vehicle :=
      { id := nextId (st.vehicles.map Vehicle.id)
        plate_number := "ABC-123", type := some "Truck"
        capacity := some 1000 }
    ({ st with vehicles := st.vehicles ++ [v] }, v)

/-- User step of the seed script: query by username `admin`, insert only
when absent. -/
def seedUser (st : Store) : Store × User :=
  match findUserByUsername st "admin" with
  | some u => (st, u)
  | none =>
    let u : User :=
      { id := nextId (st.users.map User.id)
        username := "admin", password := "admin", role := "admin" }
    ({ st with users := st.users ++ [u] }, u)

/-- Shipment step of the seed script: query by the full foreign-key
tuple of the rows resolved above, insert a `pending` shipment only when
absent (the script sets only the five keys and the status; the other
columns stay NULL). -/
def seedShipment (st : Store) (c : Customer) (w : Warehouse) (r : Route)
    (d : Driver) (v : Vehicle) : Store :=
  match findShipmentByRefs st c w r d v with
  | some _ => st
  | none =>
    let s : Shipment :=
      { id := nextId (st.shipments.map Shipment.id)
        customer_id := some c.id, warehouse_id := some w.id
        route_id := some r.id, driver_id := some d.id, vehicle_id := some v.id
        status := "pending", total_amount := none
        created_at := none, updated_at := none, estimated_delivery := none }
    { st with shipments := st.shipments ++ [s] }

/-- One run of the `__main__` body of `seed_logistics_db.py`: the seven
find-or-insert steps in script order. -/
def seedStep (st : Store) : Store :=
  let p1 := seedCustomer st
  let p2 := seedWarehouse p1.1
  let p3 := seedRoute p2.1
  let p4 := seedDriver p3.1
  let p5 := seedVehicle p4.1
  let p6 := seedUser p5.1
  seedShipment p6.1 p1.2 p2.2 p3.2 p4.2 p5.2

/-- Observable outcome of running `schema_sync.py`. -/
structure SyncRun where
  raisedRuntimeError : Bool
  engineCreated : Bool
  tablesCreated : Bool
deriving DecidableEq

/-- The module-level control flow of `schema_sync.py`: `os.getenv("ENV")`
(None when unset) is checked against `("dev", "test")` and a
`RuntimeError` is raised before `create_engine` runs; only past the guard
does the engine get created and `Base.metadata.create_all` run. -/
def schema_sync (env : Option String) : SyncRun :=
  if env == some "dev" || env == some "test" then
    { raisedRuntimeError := false, engineCreated := true, tablesCreated := true }
  else
    { raisedRuntimeError := true, engineCreated := false, tablesCreated := false }

/-- States of the store reachable from the empty store through the
lifecycle operations and runs of the seed script (failed operations roll
back, so a failed call leaves the previous state). -/
inductive Reachable : Store → Prop where
  | empty : Reachable emptyStore
  | seed {st : Store} : Reachable st → Reachable (seedStep st)
  | create {st : Store} {cid wid rid did vid : Option Nat} {amount : Option ℚ}
      {eta : Option Nat} {now : Nat} :
      Reachable st → Reachable (createPost st cid wid rid did vid amount eta now)
  | transition {st : Store} {sid : Nat} {ns loc : String} {ts : Nat} :
      Reachable st → Reachable (transitionPost st sid ns loc ts)
  | adjust {st : Store} {wid : Nat} {item : String} {delta : Int} {now : Nat} :
      Reachable st → Reachable (adjustPost st wid item delta now)

/-- Referential integrity of the audit tables: every Tracking and every
ShipmentStatusHistory row carries a present shipment key that is the key
of some Shipment row. -/
def AuditRefs (st : Store) : Prop :=
  (∀ t ∈ st.trackings, ∃ i, t.shipment_id = some i ∧ i ∈ st.shipments.map Shipment.id) ∧
  (∀ h ∈ st.histories, ∃ i, h.shipment_id = some i ∧ i ∈ st.shipments.map Shipment.id)

/-- Working invariant for the reachable states: shipment keys are
pairwise distinct and the audit tables have referential integrity. -/
def StoreWF (st : Store) : Prop :=
  (st.shipments.map Shipment.id).Nodup ∧ AuditRefs st

/-- The unique-constraint columns of the schema: `Customer.email`,
`Driver.license_number`, `Vehicle.plate_number`, `User.username` are each
pairwise distinct across their table's rows. -/
def UniqueNaturalKeys (st : Store) : Prop :=
  (st.customers.map Customer.email).Nodup ∧
  (st.drivers.map Driver.license_number).Nodup ∧
  (st.vehicles.map Vehicle.plate_number).Nodup ∧
  (st.users.map User.username).Nodup

/-- A pending shipment used as a concrete test row. -/
def shPending : Shipment :=
  { id := 1, customer_id := none, warehouse_id := none, route_id := none
    driver_id := none, vehicle_id := none, status := "pending"
    total_amount := none, created_at := some 5, updated_at := some 5
    estimated_delivery := none }

/-- A store holding exactly the one pending shipment. -/
def stOne : Store :=
  { emptyStore with shipments := [shPending] }

/-- A concrete inventory row with three widgets in warehouse 1. -/
def invWidget : Inventory :=
  { id := 1, warehouse_id := some 1, item_name := "Widget"
    quantity := 3, last_updated := none }

/-- A store holding exactly the widget inventory row. -/
def stInv : Store :=
  { emptyStore with inventories := [invWidget] }

/-- The shipment `create_shipment` produces on the empty store at time 0
with every reference absent. -/
def shCreated : Shipment :=
  { id := 1, customer_id := none, warehouse_id := none, route_id := none
    driver_id := none, vehicle_id := none, status := "pending"
    total_amount := none, created_at := some 0, updated_at := some 0
    estimated_delivery := none }

/-- The store after that creation. -/
def stCreated : Store :=
  { emptyStore with shipments := [shCreated] }

theorem mem_le_foldr_max {l : List Nat} {x : Nat} (hx : x ∈ l) :
    x ≤ l.foldr max 0 := by
  induction l with
  | nil => cases hx
  | cons a t ih =>
    rcases List.mem_cons.mp hx with rfl | hmem
    · exact le_max_left _ _
    · exact le_trans (ih hmem) (le_max_right _ _)

theorem nextId_not_mem {l : List Nat} : nextId l ∉ l := by
  intro hmem
  have h := mem_le_foldr_max hmem
  simp [nextId] at h

theorem allowed_transition_self (s : String) : allowed_transition s s = false := by
  rcases eq_or_ne s "pending" with h | h1
  · subst h; rfl
  rcases eq_or_ne s "in_transit" with h | h2
  · subst h; rfl
  rcases eq_or_ne s "delayed" with h | h3
  · subst h; rfl
  simp [allowed_transition, h1, h2, h3]

theorem allowed_transition_of_delivered (t : String) :
    allowed_transition "delivered" t = false := by
  simp [allowed_transition]

theorem allowed_transition_of_cancelled (t : String) :
    allowed_transition "cancelled" t = false := by
  simp [allowed_transition]

/-- C10: the schema-sync script raises `RuntimeError` exactly when the
`ENV` environment variable is neither `dev` nor `test` (unset included);
the guard precedes engine creation, so an engine exists and tables are
created or modified only when `ENV` is `dev` or `test`. -/
theorem schema_sync_env_guard (env : Option String) :
    ((schema_sync env).raisedRuntimeError = true ↔
      ¬(env = some "dev" ∨ env = some "test")) ∧
    ((schema_sync env).raisedRuntimeError = true →
      (schema_sync env).engineCreated = false ∧ (schema_sync env).tablesCreated = false) ∧
    ((schema_sync env).tablesCreated = true → env = some "dev" ∨ env = some "test") := by
  by_cases h : env = some "dev" ∨ env = some "test"
  · rcases h with h | h <;> subst h <;> simp [schema_sync]
  · push_neg at h
    simp [schema_sync, h.1, h.2]

/-- The guard fires on a production environment: `ENV=prod` raises and
creates nothing. -/
theorem schema_sync_env_guard_witness :
    (schema_sync (some "prod")).raisedRuntimeError = true ∧
    (schema_sync (some "prod")).engineCreated = false := by
  have h := schema_sync_env_guard (some "prod")
  refine ⟨h.1.mpr (by simp), ?_⟩
  exact (h.2.1 (h.1.mpr (by simp))).1

theorem transition_status_none {st : Store} {sid : Nat} {ns loc : String} {ts : Nat}
    (hfind : st.shipments.find? (fun x => x.id == sid) = none) :
    transition_status st sid ns loc ts = .error .notFoundError := by
  unfold transition_status
  rw [hfind]

theorem transition_status_some {st : Store} {sid : Nat} {ns loc : String} {ts : Nat}
    {sh : Shipment} (hfind : st.shipments.find? (fun x => x.id == sid) = some sh) :
    transition_status st sid ns loc ts =
      if allowed_statuses.contains ns && allowed_transition sh.status ns then
        .ok ({ st with
                shipments := st.shipments.map (fun x =>
                  if x.id == sid then { sh with status := ns, updated_at := some ts } else x)
                trackings := st.trackings ++
                  [{ id := nextId (st.trackings.map Tracking.id), shipment_id := some sid
                     status := some ns, location := some loc, timestamp := some ts }]
                histories := st.histories ++
                  [{ id := nextId (st.histories.map ShipmentStatusHistory.id)
                     shipment_id := some sid, status := ns, timestamp := ts }] },
             { sh with status := ns, updated_at := some ts })
      else .error .invalidTransitionError := by
  unfold transition_status
  rw [hfind]

theorem mem_iff_contains {a : String} {l : List String} : a ∈ l ↔ l.contains a :=
  Iff.symm List.elem_iff

/-- C1: on an existing shipment with current status `s`,
`transition_status` succeeds exactly when the new status is in the
allowed set and `(s, new_status)` is an edge of the state machine; every
other request — the no-op `new_status = s` and any move out of the
terminal states `delivered`/`cancelled` included — fails with
`InvalidTransitionError`. -/
theorem transition_status_exactly_when (st : Store) (sid : Nat) (ns loc : String) (ts : Nat)
    (sh : Shipment) (hfind : st.shipments.find? (fun x => x.id == sid) = some sh) :
    ((∃ st' sh', transition_status st sid ns loc ts = .ok (st', sh')) ↔
      (ns ∈ allowed_statuses ∧ allowed_transition sh.status ns = true)) ∧
    (¬(ns ∈ allowed_statuses ∧ allowed_transition sh.status ns = true) →
      transition_status st sid ns loc ts = .error .invalidTransitionError) ∧
    (ns = sh.status → transition_status st sid ns loc ts = .error .invalidTransitionError) ∧
    (sh.status = "delivered" ∨ sh.status = "cancelled" →
      transition_status st sid ns loc ts = .error .invalidTransitionError) := by
  have hiff : (allowed_statuses.contains ns && allowed_transition sh.status ns) = true ↔
      (ns ∈ allowed_statuses ∧ allowed_transition sh.status ns = true) := by
    rw [Bool.and_eq_true, mem_iff_contains]
  rw [transition_status_some hfind]
  by_cases hc : (allowed_statuses.contains ns && allowed_transition sh.status ns) = true
  · rw [if_pos hc]
    refine ⟨⟨fun _ => hiff.mp hc, fun _ => ⟨_, _, rfl⟩⟩, ?_, ?_, ?_⟩
    · intro hn; exact absurd (hiff.mp hc) hn
    · intro hns
      exfalso
      have ht := (hiff.mp hc).2
      rw [hns, allowed_transition_self] at ht
      cases ht
    · intro hterm
      exfalso
      have ht := (hiff.mp hc).2
      rcases hterm with h | h <;> rw [h] at ht
      · rw [allowed_transition_of_delivered] at ht; cases ht
      · rw [allowed_transition_of_cancelled] at ht; cases ht
  · rw [if_neg hc]
    refine ⟨⟨?_, ?_⟩, fun _ => rfl, fun _ => rfl, fun _ => rfl⟩
    · rintro ⟨st', sh', h⟩; cases h
    · intro hmem; exact absurd (hiff.mpr hmem) hc

/-- The pending demo shipment accepts `in_transit`. -/
theorem transition_status_exactly_when_witness :
    stOne.shipments.find? (fun x => x.id == 1) = some shPending ∧
    (∃ st' sh', transition_status stOne 1 "in_transit" "Depot" 7 = .ok (st', sh')) :=
  ⟨rfl,
    ((transition_status_exactly_when stOne 1 "in_transit" "Depot" 7 shPending rfl).1).mpr
      (by decide)⟩

/-- C2: `transition_status` is atomic — a successful call writes exactly
one Tracking row, one ShipmentStatusHistory row and the updated Shipment
row, touching no other table, and a failed call leaves the observable
store exactly as it was. -/
theorem transition_status_atomic (st : Store) (sid : Nat) (ns loc : String) (ts : Nat) :
    (∀ st' sh', transition_status st sid ns loc ts = .ok (st', sh') →
      (∃ tr, st'.trackings = st.trackings ++ [tr]) ∧
      (∃ hrow, st'.histories = st.histories ++ [hrow]) ∧
      st'.shipments = st.shipments.map (fun x => if x.id == sid then sh' else x) ∧
      st'.customers = st.customers ∧ st'.warehouses = st.warehouses ∧
      st'.routes = st.routes ∧ st'.drivers = st.drivers ∧ st'.vehicles = st.vehicles ∧
      st'.users = st.users ∧ st'.inventories = st.inventories) ∧
    (∀ e, transition_status st sid ns loc ts = .error e →
      transitionPost st sid ns loc ts = st) := by
  constructor
  · intro st' sh' h
    cases hfind : st.shipments.find? (fun x => x.id == sid) with
    | none => rw [transition_status_none hfind] at h; cases h
    | some sh =>
      rw [transition_status_some hfind] at h
      by_cases hc : (allowed_statuses.contains ns && allowed_transition sh.status ns) = true
      · rw [if_pos hc] at h
        injection h with h2
        have hA := congrArg Prod.fst h2
        have hB := congrArg Prod.snd h2
        simp only at hA hB
        subst hA
        subst hB
        exact ⟨⟨_, rfl⟩, ⟨_, rfl⟩, rfl, rfl, rfl, rfl, rfl, rfl, rfl, rfl⟩
      · rw [if_neg hc] at h; cases h
  · intro e h
    unfold transitionPost
    rw [h]

/-- A rejected no-op transition leaves the one-shipment store untouched. -/
theorem transition_status_atomic_witness :
    transitionPost stOne 1 "pending" "Depot" 7 = stOne :=
  (transition_status_atomic stOne 1 "pending" "Depot" 7).2 .invalidTransitionError rfl

/-- C3: `create_shipment` with resolving (or absent) references returns
a `pending` shipment with `created_at = updated_at = now` owning no
Tracking and no ShipmentStatusHistory rows; a dangling reference fails
with `ReferenceError`. The no-owned-rows part holds under referential
integrity of the audit tables, since the fresh key is new. -/
theorem create_shipment_spec (st : Store) (cid wid rid did vid : Option Nat)
    (amount : Option ℚ) (eta : Option Nat) (now : Nat) (haudit : AuditRefs st) :
    (refs_resolve st cid wid rid did vid = true →
      ∃ st' sh, create_shipment st cid wid rid did vid amount eta now = .ok (st', sh) ∧
        sh.status = "pending" ∧ sh.created_at = some now ∧ sh.updated_at = some now ∧
        (∀ t ∈ st'.trackings, t.shipment_id ≠ some sh.id) ∧
        (∀ h ∈ st'.histories, h.shipment_id ≠ some sh.id)) ∧
    (refs_resolve st cid wid rid did vid = false →
      create_shipment st cid wid rid did vid amount eta now = .error .referenceError) := by
  constructor
  · intro hres
    unfold create_shipment
    rw [if_pos hres]
    refine ⟨_, _, rfl, rfl, rfl, rfl, ?_, ?_⟩
    · intro t ht heq
      obtain ⟨i, hi, hmem⟩ := haudit.1 t ht
      rw [hi] at heq
      have : i = nextId (st.shipments.map Shipment.id) := Option.some.inj heq
      rw [this] at hmem
      exact nextId_not_mem hmem
    · intro h hh heq
      obtain ⟨i, hi, hmem⟩ := haudit.2 h hh
      rw [hi] at heq
      have : i = nextId (st.shipments.map Shipment.id) := Option.some.inj heq
      rw [this] at hmem
      exact nextId_not_mem hmem
  · intro hres
    unfold create_shipment
    rw [if_neg (by rw [hres]; exact Bool.false_ne_true)]

/-- Creation on the empty store succeeds with all the promised fields. -/
theorem create_shipment_spec_witness :
    ∃ st' sh, create_shipment emptyStore none none none none none none none 0 = .ok (st', sh) ∧
      sh.status = "pending" ∧ sh.created_at = some 0 ∧ sh.updated_at = some 0 ∧
      (∀ t ∈ st'.trackings, t.shipment_id ≠ some sh.id) ∧
      (∀ h ∈ st'.histories, h.shipment_id ≠ some sh.id) := by
  have ha : AuditRefs emptyStore := by
    constructor <;> intro x hx <;> simp [emptyStore] at hx
  exact (create_shipment_spec emptyStore none none none none none none none 0 ha).1 rfl

theorem adjust_quantity_none {st : Store} {wid : Nat} {item : String} {delta : Int} {now : Nat}
    (hfind : st.inventories.find?
      (fun x => x.warehouse_id == some wid && x.item_name == item) = none) :
    adjust_quantity st wid item delta now = .error .notFoundError := by
  unfold adjust_quantity
  rw [hfind]

theorem adjust_quantity_some {st : Store} {wid : Nat} {item : String} {delta : Int} {now : Nat}
    {inv : Inventory}
    (hfind : st.inventories.find?
      (fun x => x.warehouse_id == some wid && x.item_name == item) = some inv) :
    adjust_quantity st wid item delta now =
      if inv.quantity + delta < 0 then .error .insufficientStockError
      else .ok ({ st with inventories := st.inventories.map (fun x =>
                    if x.id == inv.id then
                      { inv with quantity := inv.quantity + delta, last_updated := some now }
                    else x) },
                inv.quantity + delta) := by
  unfold adjust_quantity
  rw [hfind]

/-- C8: on an existing inventory row with quantity `q`, `adjust_quantity`
fails with `InsufficientStockError` when `q + delta < 0` and leaves the
store untouched; otherwise it persists `q + delta` with a fresh
`last_updated`, and non-negativity of all quantities is preserved. -/
theorem adjust_quantity_spec (st : Store) (wid : Nat) (item : String) (delta : Int) (now : Nat)
    (inv : Inventory)
    (hfind : st.inventories.find?
      (fun x => x.warehouse_id == some wid && x.item_name == item) = some inv) :
    (inv.quantity + delta < 0 →
      adjust_quantity st wid item delta now = .error .insufficientStockError ∧
      adjustPost st wid item delta now = st) ∧
    (0 ≤ inv.quantity + delta →
      ∃ st', adjust_quantity st wid item delta now = .ok (st', inv.quantity + delta) ∧
        { inv with quantity := inv.quantity + delta, last_updated := some now } ∈
          st'.inventories ∧
        ((∀ x ∈ st.inventories, 0 ≤ x.quantity) → ∀ x ∈ st'.inventories, 0 ≤ x.quantity)) := by
  constructor
  · intro hneg
    have h := @adjust_quantity_some st wid item delta now inv hfind
    rw [if_pos hneg] at h
    refine ⟨h, ?_⟩
    unfold adjustPost
    rw [h]
  · intro hpos
    have h := @adjust_quantity_some st wid item delta now inv hfind
    rw [if_neg (not_lt.mpr hpos)] at h
    refine ⟨_, h, ?_, ?_⟩
    · have hmem : inv ∈ st.inventories := List.mem_of_find?_eq_some hfind
      refine List.mem_map.mpr ⟨inv, hmem, ?_⟩
      simp
    · intro hall x hx
      obtain ⟨y, hy, hfy⟩ := List.mem_map.mp hx
      by_cases hid : (y.id == inv.id) = true
      · rw [← hfy, if_pos hid]
        exact hpos
      · rw [← hfy, if_neg hid]
        exact hall y hy

/-- Three widgets minus five fails and rolls back. -/
theorem adjust_quantity_spec_witness :
    adjust_quantity stInv 1 "Widget" (-5) 9 = .error .insufficientStockError ∧
    adjustPost stInv 1 "Widget" (-5) 9 = stInv :=
  (adjust_quantity_spec stInv 1 "Widget" (-5) 9 invWidget rfl).1 (by decide)

/-- C4 as stated fails: the spec's `transition_status` sets
`updated_at = timestamp` with no staleness check, so a call carrying a
timestamp older than the stored `updated_at` succeeds and decreases it —
here from 5 to 3. -/
theorem updated_at_can_decrease :
    stOne.shipments.find? (fun x => x.id == 1) = some shPending ∧
    shPending.updated_at = some 5 ∧
    (∃ st', transition_status stOne 1 "in_transit" "Depot" 3 =
      .ok (st', { shPending with status := "in_transit", updated_at := some 3 })) ∧
    ¬ (5 : Nat) ≤ 3 := by
  refine ⟨rfl, rfl, ?_, by decide⟩
  refine ⟨{ stOne with
      shipments := stOne.shipments.map (fun x =>
        if x.id == 1 then { shPending with status := "in_transit", updated_at := some 3 } else x)
      trackings := stOne.trackings ++
        [{ id := nextId (stOne.trackings.map Tracking.id), shipment_id := some 1
           status := some "in_transit", location := some "Depot", timestamp := some 3 }]
      histories := stOne.histories ++
        [{ id := nextId (stOne.histories.map ShipmentStatusHistory.id)
           shipment_id := some 1, status := "in_transit", timestamp := 3 }] }, ?_⟩
  rw [@transition_status_some stOne 1 "in_transit" "Depot" 3 shPending rfl, if_pos (by decide)]

/-- C4 amended: after each successful `transition_status` call,
`updated_at` equals the call's timestamp; consequently it is
non-decreasing across a sequence of calls whenever each supplied
timestamp is at least the previously stored `updated_at`. -/
theorem updated_at_tracks_timestamp (st : Store) (sid : Nat) (ns loc : String) (ts : Nat)
    (sh : Shipment) (hfind : st.shipments.find? (fun x => x.id == sid) = some sh) :
    ∀ st' sh', transition_status st sid ns loc ts = .ok (st', sh') →
      sh'.updated_at = some ts ∧
      (∀ u, sh.updated_at = some u → u ≤ ts → ∃ v, sh'.updated_at = some v ∧ u ≤ v) := by
  intro st' sh' h
  rw [transition_status_some hfind] at h
  by_cases hc : (allowed_statuses.contains ns && allowed_transition sh.status ns) = true
  · rw [if_pos hc] at h
    injection h with h2
    have hB := congrArg Prod.snd h2
    simp only at hB
    subst hB
    exact ⟨rfl, fun u hu hle => ⟨ts, rfl, hle⟩⟩
  · rw [if_neg hc] at h
    cases h

/-- With a fresh timestamp 7 over a stored 5, `updated_at` moves to 7. -/
theorem updated_at_tracks_timestamp_witness :
    ∃ st' sh', transition_status stOne 1 "in_transit" "Depot" 7 = .ok (st', sh') ∧
      sh'.updated_at = some 7 ∧ (∃ v, sh'.updated_at = some v ∧ 5 ≤ v) := by
  refine ⟨_, _, rfl, ?_⟩
  have h := updated_at_tracks_timestamp stOne 1 "in_transit" "Depot" 7 shPending rfl _ _ rfl
  exact ⟨h.1, h.2 5 rfl (by decide)⟩

theorem dedupPairs_pair (p : String × Nat) : dedupPairs [p, p] = [p] := by
  simp [dedupPairs]

theorem sortByTime_singleton (p : String × Nat) : sortByTime [p] = [p] := rfl

/-- C5: right after `create_shipment` the merged view `get_status_history`
is empty, and after exactly one successful `transition_status` call it is
exactly the one `(status, timestamp)` entry of that call — even though
the call appended one row to the Tracking table and one to the
ShipmentStatusHistory table. -/
theorem get_status_history_roundtrip (st : Store) (cid wid rid did vid : Option Nat)
    (amount : Option ℚ) (eta : Option Nat) (now : Nat) (haudit : AuditRefs st)
    (st1 : Store) (sh : Shipment)
    (hcreate : create_shipment st cid wid rid did vid amount eta now = .ok (st1, sh)) :
    get_status_history st1 sh.id = [] ∧
    (∀ ns loc ts st2 sh', transition_status st1 sh.id ns loc ts = .ok (st2, sh') →
      (∃ tr, st2.trackings = st1.trackings ++ [tr]) ∧
      (∃ hrow, st2.histories = st1.histories ++ [hrow]) ∧
      get_status_history st2 sh.id = [(ns, ts)]) := by
  unfold create_shipment at hcreate
  by_cases hres : refs_resolve st cid wid rid did vid = true
  case neg => rw [if_neg hres] at hcreate; cases hcreate
  rw [if_pos hres] at hcreate
  injection hcreate with h2
  have hA := congrArg Prod.fst h2
  have hB := congrArg Prod.snd h2
  simp only at hA hB
  have hTrEq : st1.trackings = st.trackings := by rw [← hA]
  have hHiEq : st1.histories = st.histories := by rw [← hA]
  have hid : sh.id = nextId (st.shipments.map Shipment.id) := by rw [← hB]
  have hTrNil : trackingEntries st1 sh.id = [] := by
    unfold trackingEntries
    rw [hTrEq, hid]
    refine List.filterMap_eq_nil_iff.mpr ?_
    intro t ht
    obtain ⟨i, hi, hmem⟩ := haudit.1 t ht
    have hne : i ≠ nextId (st.shipments.map Shipment.id) := by
      intro he
      exact nextId_not_mem (he ▸ hmem)
    have hcond : ¬ (t.shipment_id == some (nextId (st.shipments.map Shipment.id))) = true := by
      rw [hi, beq_eq_false_iff_ne.mpr (fun he => hne (Option.some.inj he))]
      exact Bool.false_ne_true
    exact if_neg hcond
  have hHiNil : historyEntries st1 sh.id = [] := by
    unfold historyEntries
    rw [hHiEq, hid]
    refine List.filterMap_eq_nil_iff.mpr ?_
    intro hrow hh
    obtain ⟨i, hi, hmem⟩ := haudit.2 hrow hh
    have hne : i ≠ nextId (st.shipments.map Shipment.id) := by
      intro he
      exact nextId_not_mem (he ▸ hmem)
    have hcond : ¬ (hrow.shipment_id == some (nextId (st.shipments.map Shipment.id))) = true := by
      rw [hi, beq_eq_false_iff_ne.mpr (fun he => hne (Option.some.inj he))]
      exact Bool.false_ne_true
    exact if_neg hcond
  constructor
  · unfold get_status_history
    rw [hTrNil, hHiNil]
    rfl
  · intro ns loc ts st2 sh' h
    cases hfind : st1.shipments.find? (fun x => x.id == sh.id) with
    | none => rw [transition_status_none hfind] at h; cases h
    | some sh0 =>
      rw [@transition_status_some st1 sh.id ns loc ts sh0 hfind] at h
      by_cases hc : (allowed_statuses.contains ns && allowed_transition sh0.status ns) = true
      case neg => rw [if_neg hc] at h; cases h
      rw [if_pos hc] at h
      injection h with h3
      have hA2 := congrArg Prod.fst h3
      simp only at hA2
      have hTr2Eq : st2.trackings = st1.trackings ++
          [{ id := nextId (st1.trackings.map Tracking.id), shipment_id := some sh.id
             status := some ns, location := some loc, timestamp := some ts }] := by
        rw [← hA2]
      have hHi2Eq : st2.histories = st1.histories ++
          [{ id := nextId (st1.histories.map ShipmentStatusHistory.id)
             shipment_id := some sh.id, status := ns, timestamp := ts }] := by
        rw [← hA2]
      refine ⟨⟨_, hTr2Eq⟩, ⟨_, hHi2Eq⟩, ?_⟩
      have hTr2 : trackingEntries st2 sh.id = [(ns, ts)] := by
        unfold trackingEntries at hTrNil ⊢
        rw [hTr2Eq, List.filterMap_append, hTrNil]
        simp
      have hHi2 : historyEntries st2 sh.id = [(ns, ts)] := by
        unfold historyEntries at hHiNil ⊢
        rw [hHi2Eq, List.filterMap_append, hHiNil]
        simp
      unfold get_status_history
      rw [hTr2, hHi2]
      rw [show ([(ns, ts)] ++ [(ns, ts)] : List (String × Nat)) = [(ns, ts), (ns, ts)] from rfl]
      rw [dedupPairs_pair, sortByTime_singleton]

/-- Creating on the empty store then moving to `in_transit` at time 4
gives first an empty view, then exactly that one entry. -/
theorem get_status_history_roundtrip_witness :
    get_status_history stCreated shCreated.id = [] ∧
    (∃ st2 sh', transition_status stCreated shCreated.id "in_transit" "Depot" 4 = .ok (st2, sh') ∧
      get_status_history st2 shCreated.id = [("in_transit", 4)]) := by
  have ha : AuditRefs emptyStore := by
    constructor <;> intro x hx <;> simp [emptyStore] at hx
  have h := get_status_history_roundtrip emptyStore none none none none none none none 0 ha
    stCreated shCreated rfl
  refine ⟨h.1, ?_⟩
  refine ⟨_, _, rfl, ?_⟩
  exact (h.2 "in_transit" "Depot" 4 _ _ rfl).2.2

theorem nodup_map_append_of_not_mem {α β : Type} [DecidableEq β] {l : List α} {f : α → β}
    {a : α} (h : (l.map f).Nodup) (hnot : f a ∉ l.map f) : ((l ++ [a]).map f).Nodup := by
  rw [List.map_append]
  rw [List.nodup_append]
  refine ⟨h, List.nodup_singleton _, ?_⟩
  rw [List.map_singleton, List.disjoint_singleton]
  exact hnot

theorem storeWF_of_eq {s1 s2 : Store} (h : StoreWF s1) (hs : s2.shipments = s1.shipments)
    (ht : s2.trackings = s1.trackings) (hh : s2.histories = s1.histories) : StoreWF s2 := by
  unfold StoreWF AuditRefs at h ⊢
  rw [hs, ht, hh]
  exact h

theorem transitionPost_cases (st : Store) (sid : Nat) (ns loc : String) (ts : Nat) :
    transitionPost st sid ns loc ts = st ∨
    ∃ sh, st.shipments.find? (fun x => x.id == sid) = some sh ∧
      transitionPost st sid ns loc ts = { st with
        shipments := st.shipments.map (fun x =>
          if x.id == sid then { sh with status := ns, updated_at := some ts } else x)
        trackings := st.trackings ++
          [{ id := nextId (st.trackings.map Tracking.id), shipment_id := some sid
             status := some ns, location := some loc, timestamp := some ts }]
        histories := st.histories ++
          [{ id := nextId (st.histories.map ShipmentStatusHistory.id)
             shipment_id := some sid, status := ns, timestamp := ts }] } := by
  unfold transitionPost
  cases hfind : st.shipments.find? (fun x => x.id == sid) with
  | none => rw [transition_status_none hfind]; exact Or.inl rfl
  | some sh =>
    rw [@transition_status_some st sid ns loc ts sh hfind]
    by_cases hc : (allowed_statuses.contains ns && allowed_transition sh.status ns) = true
    · rw [if_pos hc]; exact Or.inr ⟨sh, rfl, rfl⟩
    · rw [if_neg hc]; exact Or.inl rfl

theorem createPost_cases (st : Store) (cid wid rid did vid : Option Nat) (amount : Option ℚ)
    (eta : Option Nat) (now : Nat) :
    createPost st cid wid rid did vid amount eta now = st ∨
    createPost st cid wid rid did vid amount eta now = { st with
      shipments := st.shipments ++
        [{ id := nextId (st.shipments.map Shipment.id)
           customer_id := cid, warehouse_id := wid, route_id := rid
           driver_id := did, vehicle_id := vid
           status := "pending", total_amount := amount
           created_at := some now, updated_at := some now
           estimated_delivery := eta }] } := by
  unfold createPost create_shipment
  by_cases hres : refs_resolve st cid wid rid did vid = true
  · rw [if_pos hres]; exact Or.inr rfl
  · rw [if_neg hres]; exact Or.inl rfl

theorem adjustPost_cases (st : Store) (wid : Nat) (item : String) (delta : Int) (now : Nat) :
    adjustPost st wid item delta now = st ∨
    ∃ inv : Inventory, adjustPost st wid item delta now = { st with
      inventories := st.inventories.map (fun x =>
        if x.id == inv.id then
          { inv with quantity := inv.quantity + delta, last_updated := some now }
        else x) } := by
  unfold adjustPost
  cases hfind : st.inventories.find?
      (fun x => x.warehouse_id == some wid && x.item_name == item) with
  | none => rw [adjust_quantity_none hfind]; exact Or.inl rfl
  | some inv =>
    rw [@adjust_quantity_some st wid item delta now inv hfind]
    by_cases hneg : inv.quantity + delta < 0
    · rw [if_pos hneg]; exact Or.inl rfl
    · rw [if_neg hneg]; exact Or.inr ⟨inv, rfl⟩

theorem seedCustomer_fst (st : Store) :
    (seedCustomer st).1 = { st with customers := (seedCustomer st).1.customers } := by
  unfold seedCustomer
  cases findCustomerByEmail st "alice@example.com" <;> rfl

theorem seedWarehouse_fst (st : Store) :
    (seedWarehouse st).1 = { st with warehouses := (seedWarehouse st).1.warehouses } := by
  unfold seedWarehouse
  cases findWarehouseByName st "Central Warehouse" <;> rfl

theorem seedRoute_fst (st : Store) :
    (seedRoute st).1 = { st with routes := (seedRoute st).1.routes } := by
  unfold seedRoute
  cases findRouteByEndpoints st "City A" "City B" <;> rfl

theorem seedDriver_fst (st : Store) :
    (seedDriver st).1 = { st with drivers := (seedDriver st).1.drivers } := by
  unfold seedDriver
  cases findDriverByLicense st "LIC12345" <;> rfl

theorem seedVehicle_fst (st : Store) :
    (seedVehicle st).1 = { st with vehicles := (seedVehicle st).1.vehicles } := by
  unfold seedVehicle
  cases findVehicleByPlate st "ABC-123" <;> rfl

theorem seedUser_fst (st : Store) :
    (seedUser st).1 = { st with users := (seedUser st).1.users } := by
  unfold seedUser
  cases findUserByUsername st "admin" <;> rfl

theorem seedShipment_eq (st : Store) (c : Customer) (w : Warehouse) (r : Route) (d : Driver)
    (v : Vehicle) :
    seedShipment st c w r d v = { st with shipments := (seedShipment st c w r d v).shipments } := by
  unfold seedShipment
  cases findShipmentByRefs st c w r d v <;> rfl

theorem seedCustomer_emails {st : Store} (h : (st.customers.map Customer.email).Nodup) :
    ((seedCustomer st).1.customers.map Customer.email).Nodup := by
  unfold seedCustomer
  cases hf : findCustomerByEmail st "alice@example.com" with
  | some c => exact h
  | none =>
    refine nodup_map_append_of_not_mem h ?_
    intro hmem
    obtain ⟨c, hc, heq⟩ := List.mem_map.mp hmem
    exact List.find?_eq_none.mp hf c hc (by simp [heq])

theorem seedDriver_licenses {st : Store} (h : (st.drivers.map Driver.license_number).Nodup) :
    ((seedDriver st).1.drivers.map Driver.license_number).Nodup := by
  unfold seedDriver
  cases hf : findDriverByLicense st "LIC12345" with
  | some d => exact h
  | none =>
    refine nodup_map_append_of_not_mem h ?_
    intro hmem
    obtain ⟨d, hd, heq⟩ := List.mem_map.mp hmem
    exact List.find?_eq_none.mp hf d hd (by simp [heq])

theorem seedVehicle_plates {st : Store} (h : (st.vehicles.map Vehicle.plate_number).Nodup) :
    ((seedVehicle st).1.vehicles.map Vehicle.plate_number).Nodup := by
  unfold seedVehicle
  cases hf : findVehicleByPlate st "ABC-123" with
  | some v => exact h
  | none =>
    refine nodup_map_append_of_not_mem h ?_
    intro hmem
    obtain ⟨v, hv, heq⟩ := List.mem_map.mp hmem
    exact List.find?_eq_none.mp hf v hv (by simp [heq])

theorem seedUser_usernames {st : Store} (h : (st.users.map User.username).Nodup) :
    ((seedUser st).1.users.map User.username).Nodup := by
  unfold seedUser
  cases hf : findUserByUsername st "admin" with
  | some u => exact h
  | none =>
    refine nodup_map_append_of_not_mem h ?_
    intro hmem
    obtain ⟨u, hu, heq⟩ := List.mem_map.mp hmem
    exact List.find?_eq_none.mp hf u hu (by simp [heq])

theorem seedCustomer_keys {st : Store} (h : UniqueNaturalKeys st) :
    UniqueNaturalKeys (seedCustomer st).1 := by
  obtain ⟨h1, h2, h3, h4⟩ := h
  refine ⟨seedCustomer_emails h1, ?_, ?_, ?_⟩ <;> rw [seedCustomer_fst st] <;> assumption

theorem seedWarehouse_keys {st : Store} (h : UniqueNaturalKeys st) :
    UniqueNaturalKeys (seedWarehouse st).1 := by
  obtain ⟨h1, h2, h3, h4⟩ := h
  refine ⟨?_, ?_, ?_, ?_⟩ <;> rw [seedWarehouse_fst st] <;> assumption

theorem seedRoute_keys {st : Store} (h : UniqueNaturalKeys st) :
    UniqueNaturalKeys (seedRoute st).1 := by
  obtain ⟨h1, h2, h3, h4⟩ := h
  refine ⟨?_, ?_, ?_, ?_⟩ <;> rw [seedRoute_fst st] <;> assumption

theorem seedDriver_keys {st : Store} (h : UniqueNaturalKeys st) :
    UniqueNaturalKeys (seedDriver st).1 := by
  obtain ⟨h1, h2, h3, h4⟩ := h
  refine ⟨?_, seedDriver_licenses h2, ?_, ?_⟩ <;> rw [seedDriver_fst st] <;> assumption

theorem seedVehicle_keys {st : Store} (h : UniqueNaturalKeys st) :
    UniqueNaturalKeys (seedVehicle st).1 := by
  obtain ⟨h1, h2, h3, h4⟩ := h
  refine ⟨?_, ?_, seedVehicle_plates h3, ?_⟩ <;> rw [seedVehicle_fst st] <;> assumption

theorem seedUser_keys {st : Store} (h : UniqueNaturalKeys st) :
    UniqueNaturalKeys (seedUser st).1 := by
  obtain ⟨h1, h2, h3, h4⟩ := h
  refine ⟨?_, ?_, ?_, seedUser_usernames h4⟩ <;> rw [seedUser_fst st] <;> assumption

theorem seedShipment_keys {st : Store} (c : Customer) (w : Warehouse) (r : Route) (d : Driver)
    (v : Vehicle) (h : UniqueNaturalKeys st) : UniqueNaturalKeys (seedShipment st c w r d v) := by
  obtain ⟨h1, h2, h3, h4⟩ := h
  refine ⟨?_, ?_, ?_, ?_⟩ <;> rw [seedShipment_eq st c w r d v] <;> assumption

theorem seedStep_keys {st : Store} (h : UniqueNaturalKeys st) :
    UniqueNaturalKeys (seedStep st) := by
  unfold seedStep
  exact seedShipment_keys _ _ _ _ _
    (seedUser_keys (seedVehicle_keys (seedDriver_keys (seedRoute_keys
      (seedWarehouse_keys (seedCustomer_keys h))))))

theorem transitionPost_keys {st : Store} {sid : Nat} {ns loc : String} {ts : Nat}
    (h : UniqueNaturalKeys st) : UniqueNaturalKeys (transitionPost st sid ns loc ts) := by
  rcases transitionPost_cases st sid ns loc ts with heq | ⟨sh, hfind, heq⟩ <;> rw [heq]
  · exact h
  · unfold UniqueNaturalKeys at h ⊢
    exact h

theorem createPost_keys {st : Store} {cid wid rid did vid : Option Nat} {amount : Option ℚ}
    {eta : Option Nat} {now : Nat} (h : UniqueNaturalKeys st) :
    UniqueNaturalKeys (createPost st cid wid rid did vid amount eta now) := by
  rcases createPost_cases st cid wid rid did vid amount eta now with heq | heq <;> rw [heq]
  · exact h
  · unfold UniqueNaturalKeys at h ⊢
    exact h

theorem adjustPost_keys {st : Store} {wid : Nat} {item : String} {delta : Int} {now : Nat}
    (h : UniqueNaturalKeys st) : UniqueNaturalKeys (adjustPost st wid item delta now) := by
  rcases adjustPost_cases st wid item delta now with heq | ⟨inv, heq⟩ <;> rw [heq]
  · exact h
  · unfold UniqueNaturalKeys at h ⊢
    exact h

theorem uniqueKeys_of_reachable {st : Store} (hr : Reachable st) : UniqueNaturalKeys st := by
  induction hr with
  | empty => exact ⟨List.nodup_nil, List.nodup_nil, List.nodup_nil, List.nodup_nil⟩
  | seed h ih => exact seedStep_keys ih
  | create h ih => exact createPost_keys ih
  | transition h ih => exact transitionPost_keys ih
  | adjust h ih => exact adjustPost_keys ih

theorem storeWF_append_shipment {st : Store} (h : StoreWF st) (sh : Shipment)
    (hid : sh.id = nextId (st.shipments.map Shipment.id)) :
    StoreWF { st with shipments := st.shipments ++ [sh] } := by
  unfold StoreWF AuditRefs at h ⊢
  obtain ⟨hnd, htr, hhi⟩ := h
  refine ⟨?_, ?_, ?_⟩
  · refine nodup_map_append_of_not_mem hnd ?_
    rw [hid]
    exact nextId_not_mem
  · intro t ht
    obtain ⟨i, hi, hmem⟩ := htr t ht
    refine ⟨i, hi, ?_⟩
    rw [List.map_append]
    exact List.mem_append_left _ hmem
  · intro hrow hh
    obtain ⟨i, hi, hmem⟩ := hhi hrow hh
    refine ⟨i, hi, ?_⟩
    rw [List.map_append]
    exact List.mem_append_left _ hmem

theorem seedCustomer_wf {st : Store} (h : StoreWF st) : StoreWF (seedCustomer st).1 :=
  storeWF_of_eq h (by rw [seedCustomer_fst st]) (by rw [seedCustomer_fst st])
    (by rw [seedCustomer_fst st])

theorem seedWarehouse_wf {st : Store} (h : StoreWF st) : StoreWF (seedWarehouse st).1 :=
  storeWF_of_eq h (by rw [seedWarehouse_fst st]) (by rw [seedWarehouse_fst st])
    (by rw [seedWarehouse_fst st])

theorem seedRoute_wf {st : Store} (h : StoreWF st) : StoreWF (seedRoute st).1 :=
  storeWF_of_eq h (by rw [seedRoute_fst st]) (by rw [seedRoute_fst st])
    (by rw [seedRoute_fst st])

theorem seedDriver_wf {st : Store} (h : StoreWF st) : StoreWF (seedDriver st).1 :=
  storeWF_of_eq h (by rw [seedDriver_fst st]) (by rw [seedDriver_fst st])
    (by rw [seedDriver_fst st])

theorem seedVehicle_wf {st : Store} (h : StoreWF st) : StoreWF (seedVehicle st).1 :=
  storeWF_of_eq h (by rw [seedVehicle_fst st]) (by rw [seedVehicle_fst st])
    (by rw [seedVehicle_fst st])

theorem seedUser_wf {st : Store} (h : StoreWF st) : StoreWF (seedUser st).1 :=
  storeWF_of_eq h (by rw [seedUser_fst st]) (by rw [seedUser_fst st])
    (by rw [seedUser_fst st])

theorem seedShipment_wf {st : Store} (c : Customer) (w : Warehouse) (r : Route) (d : Driver)
    (v : Vehicle) (h : StoreWF st) : StoreWF (seedShipment st c w r d v) := by
  unfold seedShipment
  cases findShipmentByRefs st c w r d v with
  | some s => exact h
  | none => exact storeWF_append_shipment h _ rfl

theorem seedStep_wf {st : Store} (h : StoreWF st) : StoreWF (seedStep st) := by
  unfold seedStep
  exact seedShipment_wf _ _ _ _ _
    (seedUser_wf (seedVehicle_wf (seedDriver_wf (seedRoute_wf
      (seedWarehouse_wf (seedCustomer_wf h))))))

theorem createPost_wf {st : Store} {cid wid rid did vid : Option Nat} {amount : Option ℚ}
    {eta : Option Nat} {now : Nat} (h : StoreWF st) :
    StoreWF (createPost st cid wid rid did vid amount eta now) := by
  rcases createPost_cases st cid wid rid did vid amount eta now with heq | heq <;> rw [heq]
  · exact h
  · exact storeWF_append_shipment h _ rfl

theorem adjustPost_wf {st : Store} {wid : Nat} {item : String} {delta : Int} {now : Nat}
    (h : StoreWF st) : StoreWF (adjustPost st wid item delta now) := by
  rcases adjustPost_cases st wid item delta now with heq | ⟨inv, heq⟩ <;> rw [heq]
  · exact h
  · exact storeWF_of_eq h rfl rfl rfl

theorem transitionPost_wf {st : Store} {sid : Nat} {ns loc : String} {ts : Nat}
    (h : StoreWF st) : StoreWF (transitionPost st sid ns loc ts) := by
  rcases transitionPost_cases st sid ns loc ts with heq | ⟨sh, hfind, heq⟩ <;> rw [heq]
  · exact h
  · unfold StoreWF AuditRefs at h ⊢
    obtain ⟨hnd, htr, hhi⟩ := h
    have hb := List.find?_some hfind
    have hsid : sh.id = sid := eq_of_beq hb
    have hids : ((st.shipments.map (fun x =>
        if x.id == sid then { sh with status := ns, updated_at := some ts } else x)).map
          Shipment.id) = st.shipments.map Shipment.id := by
      rw [List.map_map]
      refine List.map_congr_left ?_
      intro x hx
      by_cases hxi : (x.id == sid) = true
      · have hxid : x.id = sid := eq_of_beq hxi
        simp only [Function.comp]
        rw [if_pos hxi]
        show sh.id = x.id
        rw [hsid, hxid]
      · simp only [Function.comp]
        rw [if_neg hxi]
    have hsidmem : sid ∈ st.shipments.map Shipment.id := by
      rw [← hsid]
      exact List.mem_map_of_mem _ (List.mem_of_find?_eq_some hfind)
    refine ⟨?_, ?_, ?_⟩
    · rw [hids]; exact hnd
    · intro t ht
      rcases List.mem_append.mp ht with htl | htr2
      · obtain ⟨i, hi, hmem⟩ := htr t htl
        refine ⟨i, hi, ?_⟩
        rw [hids]
        exact hmem
      · have heq2 : t = _ := List.mem_singleton.mp htr2
        subst heq2
        refine ⟨sid, rfl, ?_⟩
        rw [hids]
        exact hsidmem
    · intro hrow hh
      rcases List.mem_append.mp hh with hhl | hhr2
      · obtain ⟨i, hi, hmem⟩ := hhi hrow hhl
        refine ⟨i, hi, ?_⟩
        rw [hids]
        exact hmem
      · have heq2 : hrow = _ := List.mem_singleton.mp hhr2
        subst heq2
        refine ⟨sid, rfl, ?_⟩
        rw [hids]
        exact hsidmem

theorem wf_of_reachable {st : Store} (hr : Reachable st) : StoreWF st := by
  induction hr with
  | empty =>
    refine ⟨List.nodup_nil, ?_, ?_⟩ <;> intro x hx <;> simp [emptyStore] at hx
  | seed h ih => exact seedStep_wf ih
  | create h ih => exact createPost_wf ih
  | transition h ih => exact transitionPost_wf ih
  | adjust h ih => exact adjustPost_wf ih

/-- C7: in every reachable state of the store, `Customer.email`,
`Driver.license_number`, `Vehicle.plate_number` and `User.username`
values are each pairwise distinct across their table's rows. -/
theorem natural_keys_unique (st : Store) (hr : Reachable st) :
    (st.customers.map Customer.email).Nodup ∧
    (st.drivers.map Driver.license_number).Nodup ∧
    (st.vehicles.map Vehicle.plate_number).Nodup ∧
    (st.users.map User.username).Nodup :=
  uniqueKeys_of_reachable hr

/-- The seeded store keeps its natural keys distinct. -/
theorem natural_keys_unique_witness :
    ((seedStep emptyStore).customers.map Customer.email).Nodup ∧
    ((seedStep emptyStore).drivers.map Driver.license_number).Nodup ∧
    ((seedStep emptyStore).vehicles.map Vehicle.plate_number).Nodup ∧
    ((seedStep emptyStore).users.map User.username).Nodup :=
  natural_keys_unique _ (Reachable.seed Reachable.empty)

/-- C6: in every reachable state, every Tracking row and every
ShipmentStatusHistory row carries a present shipment key resolving to
exactly one Shipment row, and every history row's timestamp is a value
(the column is declared non-nullable). -/
theorem audit_rows_belong (st : Store) (hr : Reachable st) :
    (∀ t ∈ st.trackings, ∃! sh, sh ∈ st.shipments ∧ t.shipment_id = some sh.id) ∧
    (∀ h ∈ st.histories, ∃! sh, sh ∈ st.shipments ∧ h.shipment_id = some sh.id) ∧
    (∀ h ∈ st.histories, ∃ ts : Nat, h.timestamp = ts) := by
  have hwf := wf_of_reachable hr
  unfold StoreWF AuditRefs at hwf
  obtain ⟨hnd, htr, hhi⟩ := hwf
  have huniq : ∀ (osid : Option Nat) (i : Nat), osid = some i →
      i ∈ st.shipments.map Shipment.id →
      ∃! sh, sh ∈ st.shipments ∧ osid = some sh.id := by
    intro osid i hosid hmem
    obtain ⟨sh, hshmem, hshid⟩ := List.mem_map.mp hmem
    refine ⟨sh, ⟨hshmem, by rw [hosid, hshid]⟩, ?_⟩
    intro y hy
    obtain ⟨hymem, hyid⟩ := hy
    have h1 : (some i : Option Nat) = some y.id := by rw [← hosid, hyid]
    have h2 : i = y.id := Option.some.inj h1
    refine List.inj_on_of_nodup_map hnd hymem hshmem ?_
    rw [hshid, ← h2]
  refine ⟨?_, ?_, fun h hh => ⟨h.timestamp, rfl⟩⟩
  · intro t ht
    obtain ⟨i, hi, hmem⟩ := htr t ht
    exact huniq _ i hi hmem
  · intro h hh
    obtain ⟨i, hi, hmem⟩ := hhi h hh
    exact huniq _ i hi hmem

/-- The audit rows of a store that has seen a seed run and a transition
still resolve to exactly one shipment each. -/
theorem audit_rows_belong_witness :
    (∀ t ∈ (transitionPost (seedStep emptyStore) 1 "in_transit" "Depot" 4).trackings,
      ∃! sh, sh ∈ (transitionPost (seedStep emptyStore) 1 "in_transit" "Depot" 4).shipments ∧
        t.shipment_id = some sh.id) ∧
    (∀ h ∈ (transitionPost (seedStep emptyStore) 1 "in_transit" "Depot" 4).histories,
      ∃! sh, sh ∈ (transitionPost (seedStep emptyStore) 1 "in_transit" "Depot" 4).shipments ∧
        h.shipment_id = some sh.id) ∧
    (∀ h ∈ (transitionPost (seedStep emptyStore) 1 "in_transit" "Depot" 4).histories,
      ∃ ts : Nat, h.timestamp = ts) :=
  audit_rows_belong _ (Reachable.transition (Reachable.seed Reachable.empty))

theorem find?_append_of_none {α : Type} {p : α → Bool} {l m : List α}
    (h : l.find? p = none) : (l ++ m).find? p = m.find? p := by
  induction l with
  | nil => rfl
  | cons a t ih =>
    rw [List.cons_append]
    by_cases hpa : p a = true
    · rw [List.find?_cons_of_pos t hpa] at h
      cases h
    · rw [List.find?_cons_of_neg t hpa] at h
      rw [List.find?_cons_of_neg (t ++ m) hpa]
      exact ih h

theorem seedCustomer_of_found {st : Store} {c : Customer}
    (h : findCustomerByEmail st "alice@example.com" = some c) : seedCustomer st = (st, c) := by
  unfold seedCustomer
  rw [h]

theorem seedWarehouse_of_found {st : Store} {w : Warehouse}
    (h : findWarehouseByName st "Central Warehouse" = some w) : seedWarehouse st = (st, w) := by
  unfold seedWarehouse
  rw [h]

theorem seedRoute_of_found {st : Store} {r : Route}
    (h : findRouteByEndpoints st "City A" "City B" = some r) : seedRoute st = (st, r) := by
  unfold seedRoute
  rw [h]

theorem seedDriver_of_found {st : Store} {d : Driver}
    (h : findDriverByLicense st "LIC12345" = some d) : seedDriver st = (st, d) := by
  unfold seedDriver
  rw [h]

theorem seedVehicle_of_found {st : Store} {v : Vehicle}
    (h : findVehicleByPlate st "ABC-123" = some v) : seedVehicle st = (st, v) := by
  unfold seedVehicle
  rw [h]

theorem seedUser_of_found {st : Store} {u : User}
    (h : findUserByUsername st "admin" = some u) : seedUser st = (st, u) := by
  unfold seedUser
  rw [h]

theorem seedShipment_of_found {st : Store} {c : Customer} {w : Warehouse} {r : Route}
    {d : Driver} {v : Vehicle} {s : Shipment}
    (h : findShipmentByRefs st c w r d v = some s) : seedShipment st c w r d v = st := by
  unfold seedShipment
  rw [h]

theorem seedCustomer_find (st : Store) :
    findCustomerByEmail (seedCustomer st).1 "alice@example.com" = some (seedCustomer st).2 := by
  unfold seedCustomer
  cases hf : findCustomerByEmail st "alice@example.com" with
  | some c => exact hf
  | none =>
    unfold findCustomerByEmail at hf ⊢
    dsimp only
    rw [find?_append_of_none hf]
    rfl

theorem seedWarehouse_find (st : Store) :
    findWarehouseByName (seedWarehouse st).1 "Central Warehouse" = some (seedWarehouse st).2 := by
  unfold seedWarehouse
  cases hf : findWarehouseByName st "Central Warehouse" with
  | some w => exact hf
  | none =>
    unfold findWarehouseByName at hf ⊢
    dsimp only
    rw [find?_append_of_none hf]
    rfl

theorem seedRoute_find (st : Store) :
    findRouteByEndpoints (seedRoute st).1 "City A" "City B" = some (seedRoute st).2 := by
  unfold seedRoute
  cases hf : findRouteByEndpoints st "City A" "City B" with
  | some r => exact hf
  | none =>
    unfold findRouteByEndpoints at hf ⊢
    dsimp only
    rw [find?_append_of_none hf]
    rfl

theorem seedDriver_find (st : Store) :
    findDriverByLicense (seedDriver st).1 "LIC12345" = some (seedDriver st).2 := by
  unfold seedDriver
  cases hf : findDriverByLicense st "LIC12345" with
  | some d => exact hf
  | none =>
    unfold findDriverByLicense at hf ⊢
    dsimp only
    rw [find?_append_of_none hf]
    rfl

theorem seedVehicle_find (st : Store) :
    findVehicleByPlate (seedVehicle st).1 "ABC-123" = some (seedVehicle st).2 := by
  unfold seedVehicle
  cases hf : findVehicleByPlate st "ABC-123" with
  | some v => exact hf
  | none =>
    unfold findVehicleByPlate at hf ⊢
    dsimp only
    rw [find?_append_of_none hf]
    rfl

theorem seedUser_find (st : Store) :
    findUserByUsername (seedUser st).1 "admin" = some (seedUser st).2 := by
  unfold seedUser
  cases hf : findUserByUsername st "admin" with
  | some u => exact hf
  | none =>
    unfold findUserByUsername at hf ⊢
    dsimp only
    rw [find?_append_of_none hf]
    rfl

theorem seedShipment_find (st : Store) (c : Customer) (w : Warehouse) (r : Route) (d : Driver)
    (v : Vehicle) :
    ∃ s, findShipmentByRefs (seedShipment st c w r d v) c w r d v = some s := by
  unfold seedShipment
  cases hf : findShipmentByRefs st c w r d v with
  | some s => exact ⟨s, hf⟩
  | none =>
    unfold findShipmentByRefs at hf ⊢
    dsimp only
    rw [find?_append_of_none hf]
    refine ⟨_, List.find?_cons_of_pos _ ?_⟩
    simp

theorem seedStep_def (st : Store) :
    seedStep st =
      seedShipment
        (seedUser (seedVehicle (seedDriver (seedRoute
          (seedWarehouse (seedCustomer st).1).1).1).1).1).1
        (seedCustomer st).2
        (seedWarehouse (seedCustomer st).1).2
        (seedRoute (seedWarehouse (seedCustomer st).1).1).2
        (seedDriver (seedRoute (seedWarehouse (seedCustomer st).1).1).1).2
        (seedVehicle (seedDriver (seedRoute (seedWarehouse (seedCustomer st).1).1).1).1).2 :=
  rfl

theorem seedStep_findCustomer (st : Store) :
    findCustomerByEmail (seedStep st) "alice@example.com" = some (seedCustomer st).2 := by
  have h1 := seedCustomer_find st
  have hc : (seedStep st).customers = (seedCustomer st).1.customers := by
    rw [seedStep_def st, seedShipment_eq, seedUser_fst, seedVehicle_fst, seedDriver_fst,
      seedRoute_fst, seedWarehouse_fst]
  unfold findCustomerByEmail at h1 ⊢
  rw [hc]
  exact h1

theorem seedStep_findWarehouse (st : Store) :
    findWarehouseByName (seedStep st) "Central Warehouse" =
      some (seedWarehouse (seedCustomer st).1).2 := by
  have h1 := seedWarehouse_find (seedCustomer st).1
  have hc : (seedStep st).warehouses = (seedWarehouse (seedCustomer st).1).1.warehouses := by
    rw [seedStep_def st, seedShipment_eq, seedUser_fst, seedVehicle_fst, seedDriver_fst,
      seedRoute_fst]
  unfold findWarehouseByName at h1 ⊢
  rw [hc]
  exact h1

theorem seedStep_findRoute (st : Store) :
    findRouteByEndpoints (seedStep st) "City A" "City B" =
      some (seedRoute (seedWarehouse (seedCustomer st).1).1).2 := by
  have h1 := seedRoute_find (seedWarehouse (seedCustomer st).1).1
  have hc : (seedStep st).routes =
      (seedRoute (seedWarehouse (seedCustomer st).1).1).1.routes := by
    rw [seedStep_def st, seedShipment_eq, seedUser_fst, seedVehicle_fst, seedDriver_fst]
  unfold findRouteByEndpoints at h1 ⊢
  rw [hc]
  exact h1

theorem seedStep_findDriver (st : Store) :
    findDriverByLicense (seedStep st) "LIC12345" =
      some (seedDriver (seedRoute (seedWarehouse (seedCustomer st).1).1).1).2 := by
  have h1 := seedDriver_find (seedRoute (seedWarehouse (seedCustomer st).1).1).1
  have hc : (seedStep st).drivers =
      (seedDriver (seedRoute (seedWarehouse (seedCustomer st).1).1).1).1.drivers := by
    rw [seedStep_def st, seedShipment_eq, seedUser_fst, seedVehicle_fst]
  unfold findDriverByLicense at h1 ⊢
  rw [hc]
  exact h1

theorem seedStep_findVehicle (st : Store) :
    findVehicleByPlate (seedStep st) "ABC-123" =
      some (seedVehicle (seedDriver (seedRoute
        (seedWarehouse (seedCustomer st).1).1).1).1).2 := by
  have h1 := seedVehicle_find (seedDriver (seedRoute (seedWarehouse (seedCustomer st).1).1).1).1
  have hc : (seedStep st).vehicles =
      (seedVehicle (seedDriver (seedRoute
        (seedWarehouse (seedCustomer st).1).1).1).1).1.vehicles := by
    rw [seedStep_def st, seedShipment_eq, seedUser_fst]
  unfold findVehicleByPlate at h1 ⊢
  rw [hc]
  exact h1

theorem seedStep_findUser (st : Store) :
    findUserByUsername (seedStep st) "admin" =
      some (seedUser (seedVehicle (seedDriver (seedRoute
        (seedWarehouse (seedCustomer st).1).1).1).1).1).2 := by
  have h1 := seedUser_find (seedVehicle (seedDriver (seedRoute
    (seedWarehouse (seedCustomer st).1).1).1).1).1
  have hc : (seedStep st).users =
      (seedUser (seedVehicle (seedDriver (seedRoute
        (seedWarehouse (seedCustomer st).1).1).1).1).1).1.users := by
    rw [seedStep_def st, seedShipment_eq]
  unfold findUserByUsername at h1 ⊢
  rw [hc]
  exact h1

/-- C9: the seed script is idempotent — each entity is looked up by its
natural key first and inserted only when absent, so a second run over the
already-seeded store finds every row, inserts nothing and leaves the
store unchanged. -/
theorem seed_idempotent (st : Store) : seedStep (seedStep st) = seedStep st := by
  obtain ⟨s0, hship⟩ : ∃ s, findShipmentByRefs (seedStep st)
      (seedCustomer st).2
      (seedWarehouse (seedCustomer st).1).2
      (seedRoute (seedWarehouse (seedCustomer st).1).1).2
      (seedDriver (seedRoute (seedWarehouse (seedCustomer st).1).1).1).2
      (seedVehicle (seedDriver (seedRoute
        (seedWarehouse (seedCustomer st).1).1).1).1).2 = some s := by
    rw [seedStep_def st]
    exact seedShipment_find _ _ _ _ _ _
  rw [seedStep_def (seedStep st)]
  rw [seedCustomer_of_found (seedStep_findCustomer st)]
  dsimp only
  rw [seedWarehouse_of_found (seedStep_findWarehouse st)]
  dsimp only
  rw [seedRoute_of_found (seedStep_findRoute st)]
  dsimp only
  rw [seedDriver_of_found (seedStep_findDriver st)]
  dsimp only
  rw [seedVehicle_of_found (seedStep_findVehicle st)]
  dsimp only
  rw [seedUser_of_found (seedStep_findUser st)]
  dsimp only
  rw [seedShipment_of_found hship]

/-- A second seed run over the freshly seeded empty store is a no-op. -/
theorem seed_idempotent_witness : seedStep (seedStep emptyStore) = seedStep emptyStore :=
  seed_idempotent emptyStore
